import Mathlib

/-!
Verification development for the VS-Codex browser client.

The embedding covers the pieces of the client that the specification's
testable properties talk about:

* `src/static/js/monky-common.js` — the `fetchJSON` helper (request
  preparation and response handling) and the `api` façade;
* `src/dist/js/app.js` — the `ping` latency sampler, its rolling
  `pingSeries` buffer, and the `drawSparkline` canvas renderer;
* the tab controller (`activateTab`, `refreshProjectsSection`, the vault
  unlock handler) of the main client module.

JavaScript values flowing through `fetchJSON` are modelled by an inductive
`Json` type.  JSON numbers are modelled as integers (`Int`): the claims
under scrutiny only involve integral numerics, and IEEE-754 doubles do not
shallow-embed.  `parseJSON` models `JSON.parse` (restricted to integral
number literals: a fractional or exponent-bearing literal makes the parse
fail rather than produce an unrepresentable value), and `stringify` models
`JSON.stringify` on this fragment.  Wall-clock instants
(`performance.now()`) are modelled as rationals.
-/

/-- A JavaScript/JSON value as handled by `fetchJSON`: `null`, booleans,
(integral) numbers, strings, arrays and plain objects.  A raw response body
that fails to parse is kept as a `.str`, exactly as in JavaScript where the
fallback payload is the body text. -/
inductive Json where
  | null
  | bool (b : Bool)
  | num (n : Int)
  | str (s : String)
  | arr (xs : List Json)
  | obj (fields : List (String × Json))

/-- JavaScript truthiness of a value (`null`, `false`, `0` and `""` are
falsy; arrays and objects are always truthy). -/
def jsTruthy : Json → Bool
  | .null => false
  | .bool b => b
  | .num n => n != 0
  | .str s => s != ""
  | .arr _ => true
  | .obj _ => true

/-- Property access `payload.k`: `some` the bound value on a plain object
that has the key (later bindings shadow earlier ones, as JavaScript
assignment overwrites), `none` (i.e. `undefined`) otherwise. -/
def jsField (j : Json) (k : String) : Option Json :=
  match j with
  | .obj fields => (fields.reverse).lookup k
  | _ => none

/-- Whether `payload && typeof payload === 'object'` holds: a (non-null)
object or array. -/
def objLike : Json → Bool
  | .obj _ => true
  | .arr _ => true
  | _ => false

/-- The JavaScript `a || b` on an optional field access: keep `a` when it is
present and truthy, otherwise fall through to `b`. -/
def jsOrElse (a b : Option Json) : Option Json :=
  match a with
  | some v => if jsTruthy v then some v else b
  | none => b

mutual

/-- JavaScript `ToString` conversion, as applied by `new Error(message)` to a
non-string message value. -/
def jsToString : Json → String
  | .null => "null"
  | .bool true => "true"
  | .bool false => "false"
  | .num n => toString n
  | .str s => s
  | .arr xs => jsToStringItems xs
  | .obj _ => "[object Object]"

/-- `Array.prototype.toString`: elements joined with commas, `null` elements
contributing the empty string. -/
def jsToStringItems : List Json → String
  | [] => ""
  | [x] => jsToStringItem x
  | x :: xs => jsToStringItem x ++ "," ++ jsToStringItems xs

/-- One element of an array under `ToString`: as `jsToString`, except that a
`null` element prints as nothing. -/
def jsToStringItem : Json → String
  | .null => ""
  | .bool true => "true"
  | .bool false => "false"
  | .num n => toString n
  | .str s => s
  | .arr xs => jsToStringItems xs
  | .obj _ => "[object Object]"

end

/-- Hex digit for `\u00XX` escapes in `JSON.stringify` output. -/
def hexDigit (n : Nat) : Char :=
  if n < 10 then Char.ofNat (48 + n) else Char.ofNat (87 + n)

/-- String-content escaping performed by `JSON.stringify`. -/
def escapeChars : List Char → List Char
  | [] => []
  | c :: cs =>
    let rest := escapeChars cs
    if c = '"' then '\\' :: '"' :: rest
    else if c = '\\' then '\\' :: '\\' :: rest
    else if c = '\n' then '\\' :: 'n' :: rest
    else if c = '\t' then '\\' :: 't' :: rest
    else if c = '\r' then '\\' :: 'r' :: rest
    else if c = '\x08' then '\\' :: 'b' :: rest
    else if c = '\x0c' then '\\' :: 'f' :: rest
    else if c.toNat < 32 then
      '\\' :: 'u' :: '0' :: '0' :: hexDigit (c.toNat / 16) :: hexDigit (c.toNat % 16) :: rest
    else c :: rest

/-- A JSON string literal as produced by `JSON.stringify`. -/
def quoteString (s : String) : String :=
  "\"" ++ String.mk (escapeChars s.toList) ++ "\""

mutual

/-- `JSON.stringify` on the modelled value fragment. -/
def stringify : Json → String
  | .null => "null"
  | .bool true => "true"
  | .bool false => "false"
  | .num n => toString n
  | .str s => quoteString s
  | .arr xs => "[" ++ stringifyItems xs ++ "]"
  | .obj fields => "\x7b" ++ stringifyFields fields ++ "\x7d"

/-- Comma-separated array elements. -/
def stringifyItems : List Json → String
  | [] => ""
  | [x] => stringify x
  | x :: xs => stringify x ++ "," ++ stringifyItems xs

/-- Comma-separated `"key":value` object members. -/
def stringifyFields : List (String × Json) → String
  | [] => ""
  | [kv] => quoteString kv.1 ++ ":" ++ stringify kv.2
  | kv :: kvs => quoteString kv.1 ++ ":" ++ stringify kv.2 ++ "," ++ stringifyFields kvs

end

/-- Skip JSON insignificant whitespace. -/
def skipWs : List Char → List Char
  | [] => []
  | c :: cs => if c = ' ' ∨ c = '\t' ∨ c = '\n' ∨ c = '\r' then skipWs cs else c :: cs

/-- Value of a hex digit, if the character is one. -/
def hexVal (c : Char) : Option Nat :=
  if '0' ≤ c ∧ c ≤ '9' then some (c.toNat - 48)
  else if 'a' ≤ c ∧ c ≤ 'f' then some (c.toNat - 87)
  else if 'A' ≤ c ∧ c ≤ 'F' then some (c.toNat - 55)
  else none

/-- Parse the remainder of a JSON string literal (the opening quote already
consumed), returning the decoded content and the rest of the input.  Raw
control characters are rejected, as `JSON.parse` rejects them. -/
def parseStringChars : List Char → Option (List Char × List Char)
  | [] => none
  | '"' :: rest => some ([], rest)
  | '\\' :: 'u' :: h1 :: h2 :: h3 :: h4 :: rest => do
    let a ← hexVal h1
    let b ← hexVal h2
    let c ← hexVal h3
    let d ← hexVal h4
    let (s, r) ← parseStringChars rest
    some (Char.ofNat (((a * 16 + b) * 16 + c) * 16 + d) :: s, r)
  | '\\' :: e :: rest => do
    let c ←
      if e = '"' then some '"'
      else if e = '\\' then some '\\'
      else if e = '/' then some '/'
      else if e = 'b' then some '\x08'
      else if e = 'f' then some '\x0c'
      else if e = 'n' then some '\n'
      else if e = 'r' then some '\r'
      else if e = 't' then some '\t'
      else none
    let (s, r) ← parseStringChars rest
    some (c :: s, r)
  | c :: rest => do
    if c.toNat < 32 then none
    else
      let (s, r) ← parseStringChars rest
      some (c :: s, r)

/-- Split a leading run of decimal digits off the input. -/
def takeDigits : List Char → List Char × List Char
  | [] => ([], [])
  | c :: cs =>
    if c.isDigit then
      let (ds, rest) := takeDigits cs
      (c :: ds, rest)
    else ([], c :: cs)

/-- Numeric value of a digit run. -/
def digitsToNat : List Char → Nat
  | [] => 0
  | ds => ds.foldl (fun acc c => acc * 10 + (c.toNat - 48)) 0

/-- Parse a JSON number literal.  Leading zeros are rejected (as in JSON),
and a fraction or exponent part makes the parse fail: the model only
represents integral numbers. -/
def parseNumber (cs : List Char) : Option (Json × List Char) := do
  let (neg, cs1) := match cs with
    | '-' :: rest => (true, rest)
    | rest => (false, rest)
  let (ds, rest) := takeDigits cs1
  match ds with
  | [] => none
  | d0 :: dtail =>
    if d0 = '0' ∧ dtail ≠ [] then none
    else
      match rest with
      | '.' :: _ => none
      | 'e' :: _ => none
      | 'E' :: _ => none
      | _ =>
        let n : Int := Int.ofNat (digitsToNat ds)
        some (.num (if neg then -n else n), rest)

/-- Consume an expected literal keyword tail. -/
def expectChars : List Char → List Char → Option (List Char)
  | [], input => some input
  | e :: es, c :: cs => if c = e then expectChars es cs else none
  | _ :: _, [] => none

/-- Insert a parsed object member, overwriting an existing binding for the
same key in place (as assignment during `JSON.parse` does). -/
def insertField (fields : List (String × Json)) (k : String) (v : Json) :
    List (String × Json) :=
  match fields with
  | [] => [(k, v)]
  | (k0, v0) :: rest =>
    if k0 = k then (k, v) :: rest else (k0, v0) :: insertField rest k v

mutual

/-- Parse one JSON value (fuel-indexed recursive descent). -/
def parseVal (fuel : Nat) (cs : List Char) : Option (Json × List Char) :=
  match fuel with
  | 0 => none
  | fuel + 1 =>
    match skipWs cs with
    | [] => none
    | c :: rest =>
      if c = 'n' then (expectChars ['u', 'l', 'l'] rest).map (fun r => (.null, r))
      else if c = 't' then (expectChars ['r', 'u', 'e'] rest).map (fun r => (.bool true, r))
      else if c = 'f' then (expectChars ['a', 'l', 's', 'e'] rest).map (fun r => (.bool false, r))
      else if c = '"' then (parseStringChars rest).map (fun p => (.str (String.mk p.1), p.2))
      else if c = '-' ∨ c.isDigit then parseNumber (c :: rest)
      else if c = '[' then
        match skipWs rest with
        | ']' :: r2 => some (.arr [], r2)
        | r2 => parseArrItems fuel r2 []
      else if c = '\x7b' then
        match skipWs rest with
        | '\x7d' :: r2 => some (.obj [], r2)
        | r2 => parseObjItems fuel r2 []
      else none

/-- Parse the comma-separated elements of a non-empty array. -/
def parseArrItems (fuel : Nat) (cs : List Char) (acc : List Json) :
    Option (Json × List Char) :=
  match fuel with
  | 0 => none
  | fuel + 1 =>
    match parseVal fuel cs with
    | none => none
    | some (v, rest) =>
      match skipWs rest with
      | ',' :: r2 => parseArrItems fuel r2 (acc ++ [v])
      | ']' :: r2 => some (.arr (acc ++ [v]), r2)
      | _ => none

/-- Parse the comma-separated members of a non-empty object. -/
def parseObjItems (fuel : Nat) (cs : List Char) (acc : List (String × Json)) :
    Option (Json × List Char) :=
  match fuel with
  | 0 => none
  | fuel + 1 =>
    match skipWs cs with
    | '"' :: r1 =>
      match parseStringChars r1 with
      | none => none
      | some (k, r2) =>
        match skipWs r2 with
        | ':' :: r3 =>
          match parseVal fuel r3 with
          | none => none
          | some (v, r4) =>
            match skipWs r4 with
            | ',' :: r5 => parseObjItems fuel r5 (insertField acc (String.mk k) v)
            | '\x7d' :: r5 => some (.obj (insertField acc (String.mk k) v), r5)
            | _ => none
        | _ => none
    | _ => none

end

/-- `JSON.parse` on the modelled fragment: a complete JSON document with no
trailing garbage, or `none` when the text is not (representable) JSON. -/
def parseJSON (s : String) : Option Json :=
  let cs := s.toList
  match parseVal (2 * cs.length + 2) cs with
  | some (j, rest) => if skipWs rest = [] then some j else none
  | none => none

example : parseJSON "oops" = none := by rfl

example : parseJSON "\x7b\"detail\":\"not found\"\x7d" =
    some (.obj [("detail", .str "not found")]) := by rfl

example : stringify (.obj [("a", .num 1)]) = "\x7b\"a\":1\x7d" := by rfl

/-! ## `fetchJSON`: request preparation (monky-common.js lines 1-10) -/

/-- A request body as passed to `fetchJSON`: a string, a `FormData`
instance, or a plain object (what every call site in the `api` façade
passes). -/
inductive BodyVal where
  | str (s : String)
  | form
  | obj (fields : List (String × Json))

/-- The options bag accepted by `fetchJSON`. -/
structure FetchOpts where
  method : Option String := none
  headers : List (String × String) := []
  body : Option BodyVal := none

/-- The request as handed to `fetch` after `fetchJSON`'s preparation. -/
structure PreparedRequest where
  method : String
  headers : List (String × String)
  body : Option BodyVal

/-- Truthiness of `opts.headers['Content-Type']`-style access: the key is
present with a non-empty value. -/
def headerTruthy (hs : List (String × String)) (k : String) : Bool :=
  match hs.lookup k with
  | some v => v != ""
  | none => false

/-- JavaScript object assignment `headers[k] = v`: overwrite in place, or
append when the key is new. -/
def setHeader (hs : List (String × String)) (k v : String) : List (String × String) :=
  match hs with
  | [] => [(k, v)]
  | (k0, v0) :: rest =>
    if k0 = k then (k, v) :: rest else (k0, v0) :: setHeader rest k v

/-- Truthiness of `opts.body`. -/
def bodyTruthy : Option BodyVal → Bool
  | none => false
  | some (.str s) => s != ""
  | some .form => true
  | some (.obj _) => true

/-- `opts.body instanceof FormData`. -/
def isFormBody : Option BodyVal → Bool
  | some .form => true
  | _ => false

/-- `if (typeof opts.body !== 'string') opts.body = JSON.stringify(opts.body)`. -/
def stringifyBody : BodyVal → BodyVal
  | .str s => .str s
  | .form => .form
  | .obj fields => .str (stringify (.obj fields))

/-- The request-preparation phase of `fetchJSON` (monky-common.js lines
1-10): default the method to `GET`, copy the headers, and when the body is
truthy, not a `FormData`, and no `Content-Type` header is set, set
`Content-Type: application/json` and serialize a non-string body with
`JSON.stringify`. -/
def fetchPrepare (opts : FetchOpts) : PreparedRequest :=
  let method := opts.method.getD "GET"
  if bodyTruthy opts.body && !isFormBody opts.body &&
      !headerTruthy opts.headers "Content-Type" then
    { method := method
      headers := setHeader opts.headers "Content-Type" "application/json"
      body := opts.body.map stringifyBody }
  else
    { method := method, headers := opts.headers, body := opts.body }

/-! ## `fetchJSON`: response handling (monky-common.js lines 12-28) -/

/-- The observable parts of the `fetch` response that `fetchJSON` inspects:
`response.ok`, `response.statusText` and the body text. -/
structure HttpResponse where
  ok : Bool
  statusText : String
  body : String

/-- The payload variable of `fetchJSON`: `null` for an empty body, the
parsed JSON of the body when `JSON.parse` succeeds, and the raw body text
otherwise. -/
def fetchPayload (body : String) : Json :=
  if body = "" then .null else (parseJSON body).getD (.str body)

/-- The error message synthesized for a non-ok response: for a truthy
object-typed payload, `payload.detail || payload.error ||
JSON.stringify(payload)`; otherwise `response.statusText`. -/
def errMessage (payload : Json) (statusText : String) : String :=
  if objLike payload then
    match jsOrElse (jsField payload "detail") (jsOrElse (jsField payload "error") none) with
    | some v => jsToString v
    | none => stringify payload
  else statusText

/-- The response phase of `fetchJSON` (monky-common.js lines 12-28): read
the body text, build the payload, throw `Error(message)` on a non-ok
status, and otherwise resolve with `payload ?? {}`. -/
def fetchJSONRun (r : HttpResponse) : Except String Json :=
  let payload := fetchPayload r.body
  if r.ok then
    .ok (match payload with
      | .null => .obj []
      | p => p)
  else
    .error (errMessage payload r.statusText)

/-! ## Ping sampler (app.js lines 74-92) -/

/-- One update of the rolling buffer: `pingSeries.push(sample); if
(pingSeries.length > 40) pingSeries.shift();`. -/
def pingStep (buf : List Int) (sample : Int) : List Int :=
  let b := buf ++ [sample]
  if 40 < b.length then b.drop 1 else b

/-- The buffer obtained by running the sampler from the initial empty
`pingSeries` over a whole sequence of recorded samples. -/
def pingSeriesOf (samples : List Int) : List Int :=
  samples.foldl pingStep []

/-- `Math.round` on a non-integral clock difference (rounding half away
from zero is irrelevant here; JavaScript rounds half up, i.e.
`Math.round(x) = ⌊x + 1/2⌋`). -/
def jsRound (q : ℚ) : Int :=
  ⌊q + 1 / 2⌋

/-- The value `ping` pushes: the rounded elapsed milliseconds when the
response is ok, the sentinel `-1` otherwise (app.js line 83). -/
def pingEntry (ok : Bool) (t0 t1 : ℚ) : Int :=
  if ok then jsRound (t1 - t0) else -1

/-- One `ping(provider)` call as it affects `pingSeries`: record the clock
before and after the round trip and push the resulting entry. -/
def ping (buf : List Int) (ok : Bool) (t0 t1 : ℚ) : List Int :=
  pingStep buf (pingEntry ok t0 t1)

/-! ## Sparkline renderer (app.js lines 143-161) -/

/-- The canvas-context operations `drawSparkline` can issue. -/
inductive DrawCmd where
  | clearRect (x y w h : ℚ)
  | beginPath
  | moveTo (x y : ℚ)
  | lineTo (x y : ℚ)
  | setLineWidth (q : ℚ)
  | setStrokeStyle (s : String)
  | stroke
deriving DecidableEq

/-- The clamped series `pingSeries.map(v => v < 0 ? 0 : v)`. -/
def clampNonneg (v : Int) : Int :=
  if v < 0 then 0 else v

/-- The y-scale `Math.max(...values, 100)` over the clamped series. -/
def sparkMax (series : List Int) : Int :=
  (series.map clampNonneg).foldl max 100

/-- The x step `w / Math.max(pingSeries.length - 1, 1)`. -/
def sparkStep (series : List Int) (w : ℚ) : ℚ :=
  w / ((max (series.length - 1) 1 : ℕ) : ℚ)

/-- The y coordinate of one sample: `v < 0 ? h - 2 : h - (v / max) * h`. -/
def sparkY (v : Int) (h : ℚ) (mx : Int) : ℚ :=
  if v < 0 then h - 2 else h - ((v : ℚ) / (mx : ℚ)) * h

/-- `drawSparkline` (app.js lines 143-161) as the sequence of canvas
operations it issues, with the canvas extent `(w, h)` as parameters: clear,
return early on an empty buffer, otherwise trace one point per sample
(`moveTo` for index 0, `lineTo` after) and stroke the path. -/
def drawSparkline (series : List Int) (w h : ℚ) : List DrawCmd :=
  let clearCmds := [DrawCmd.clearRect 0 0 w h]
  if series.length = 0 then clearCmds
  else
    let mx := sparkMax series
    let step := sparkStep series w
    let path := series.enum.map (fun p =>
      let x : ℚ := (p.1 : ℚ) * step
      let y := sparkY p.2 h mx
      if p.1 = 0 then DrawCmd.moveTo x y else DrawCmd.lineTo x y)
    clearCmds ++ [DrawCmd.beginPath] ++ path ++
      [DrawCmd.setLineWidth 2, DrawCmd.setStrokeStyle "#4B9FFF", DrawCmd.stroke]

/-- The `(x, y)` points a command list traces (its `moveTo`/`lineTo`
arguments, in order). -/
def pathPoints (cmds : List DrawCmd) : List (ℚ × ℚ) :=
  cmds.filterMap (fun c =>
    match c with
    | .moveTo x y => some (x, y)
    | .lineTo x y => some (x, y)
    | _ => none)

/-! ## Tab controller (main client module, `activateTab` and friends) -/

/-- The tab ids of the main client's `state.tabsLoaded` object. -/
inductive TabId where
  | home
  | assistant
  | projects
  | budget
  | sensors
  | vault
  | dev
deriving DecidableEq

/-- The `tabsLoaded` slice of the client state: one flag per tab, all
initially `false`. -/
structure TabsLoaded where
  home : Bool
  assistant : Bool
  projects : Bool
  budget : Bool
  sensors : Bool
  vault : Bool
  dev : Bool
deriving DecidableEq

/-- Read `state.tabsLoaded[tabId]`. -/
def TabsLoaded.get (t : TabsLoaded) : TabId → Bool
  | .home => t.home
  | .assistant => t.assistant
  | .projects => t.projects
  | .budget => t.budget
  | .sensors => t.sensors
  | .vault => t.vault
  | .dev => t.dev

/-- Write `state.tabsLoaded[tabId] = b`. -/
def TabsLoaded.set (t : TabsLoaded) (tab : TabId) (b : Bool) : TabsLoaded :=
  match tab with
  | .home => { t with home := b }
  | .assistant => { t with assistant := b }
  | .projects => { t with projects := b }
  | .budget => { t with budget := b }
  | .sensors => { t with sensors := b }
  | .vault => { t with vault := b }
  | .dev => { t with dev := b }

/-- The initial `tabsLoaded` object (every tab unloaded). -/
def initialTabsLoaded : TabsLoaded :=
  { home := false, assistant := false, projects := false, budget := false
    sensors := false, vault := false, dev := false }

/-- The `state.vault` slice: the remembered PIN, the unlocked flag and the
fetched items. -/
structure VaultState where
  pin : String
  unlocked : Bool
  items : List Json

/-- The client's module-level `state` object, restricted to the slices the
modelled controller actions touch. -/
structure ClientState where
  tabsLoaded : TabsLoaded
  projects : List Json
  tasks : List Json
  notes : List Json
  vault : VaultState

/-- The initial client state (the `state` literal of the main module). -/
def initialClientState : ClientState :=
  { tabsLoaded := initialTabsLoaded
    projects := []
    tasks := []
    notes := []
    vault := { pin := "", unlocked := false, items := [] } }

/-- Toast severities used by `showToast`. -/
inductive ToastVariant where
  | info
  | success
  | warn
  | danger
deriving DecidableEq

/-- One `showToast(message, variant)` emission. -/
structure Toast where
  message : String
  variant : ToastVariant
deriving DecidableEq

/-- The externally observable doings of `activateTab`: toggling a tab
panel's visibility class, or kicking off a tab's façade data load. -/
inductive Effect where
  | toggleVisibility (tab : TabId)
  | facadeLoad (tab : TabId)
deriving DecidableEq

/-- The outcome of the fan-out fetch `Promise.all([api.projects.list(),
api.tasks.list(), api.notes.list()])`: the three lists, or the error whose
message the rejection carries. -/
abbrev ProjectsFetch := Except String (List Json × List Json × List Json)

/-- `refreshProjectsSection`: on a resolved fetch, overwrite the three state
slices (and re-render); on a rejected fetch, catch and emit a danger toast,
leaving the state untouched. -/
def refreshProjectsSection (s : ClientState) (fetched : ProjectsFetch) :
    ClientState × List Toast :=
  match fetched with
  | .ok (ps, ts, ns) => ({ s with projects := ps, tasks := ts, notes := ns }, [])
  | .error msg => (s, [{ message := "Project load failed: " ++ msg, variant := .danger }])

/-- Which tabs' `activateTab` switch arms trigger a façade load (every tab
except `vault`, whose arm is the data-free default). -/
def hasLoader : TabId → Bool
  | .vault => false
  | _ => true

/-- `activateTab(tabId)`: always toggle the panels' visibility; when the
tab is not yet loaded, run its switch arm (the `projects` arm is modelled
with its data and error behaviour, the other loaders as opaque
`facadeLoad` effects since each wraps its façade calls in its own catch)
and mark the tab loaded — unconditionally, whether or not the triggered
load succeeds. -/
def activateTab (s : ClientState) (tabId : TabId) (fetched : ProjectsFetch) :
    ClientState × List Effect × List Toast :=
  let toggles := [Effect.toggleVisibility tabId]
  if s.tabsLoaded.get tabId then (s, toggles, [])
  else
    let loaded :=
      if tabId = TabId.projects then refreshProjectsSection s fetched else (s, [])
    let effects := if hasLoader tabId then [Effect.facadeLoad tabId] else []
    ({ loaded.1 with tabsLoaded := loaded.1.tabsLoaded.set tabId true },
      toggles ++ effects, loaded.2)

/-- Run a sequence of `activateTab` calls, collecting the trace of
effects. -/
def runActivations (s : ClientState) (acts : List TabId) (fetched : ProjectsFetch) :
    ClientState × List Effect :=
  match acts with
  | [] => (s, [])
  | t :: rest =>
    let step := activateTab s t fetched
    let further := runActivations step.1 rest fetched
    (further.1, step.2.1 ++ further.2)

/-! ## Vault gating (the vault unlock submit handler and `loadVaultItems`) -/

/-- One façade request issued by the vault handlers, with its path and JSON
body. -/
structure ApiCall where
  method : String
  path : String
  body : Json

/-- `api.vault.auth(pin)`: `fetchJSON('/vault/auth', { method: 'POST',
body: { pin } })`. -/
def vaultAuthCall (pin : String) : ApiCall :=
  { method := "POST", path := "/vault/auth", body := .obj [("pin", .str pin)] }

/-- `api.vault.list(pin)`: `fetchJSON('/vault/items/list', { method:
'POST', body: { pin } })`. -/
def vaultListCall (pin : String) : ApiCall :=
  { method := "POST", path := "/vault/items/list", body := .obj [("pin", .str pin)] }

/-- `loadVaultItems()`: list the items with the remembered PIN; on success
store them, on failure catch and toast. -/
def loadVaultItems (v : VaultState) (listResult : Except String (List Json)) :
    VaultState × List ApiCall × List Toast :=
  let calls := [vaultListCall v.pin]
  match listResult with
  | .ok items => ({ v with items := items }, calls, [])
  | .error msg =>
    (v, calls, [{ message := "Vault load failed: " ++ msg, variant := .danger }])

/-- The vault unlock form's submit handler: post the PIN to `/vault/auth`;
when `result.ok` is truthy, remember the PIN, mark the vault unlocked,
reveal the secure section (`hidden = false`), load the items and toast
success; when it is falsy, toast `Invalid PIN` (danger) and change nothing;
when the auth call itself rejects, catch and toast danger.  The Boolean
result component is the `hidden` attribute of the secure section after the
handler (initially `true`). -/
def vaultUnlockSubmit (v : VaultState) (secureHidden : Bool) (pin : String)
    (authResult : Except String Json) (listResult : Except String (List Json)) :
    VaultState × Bool × List ApiCall × List Toast :=
  let authCalls := [vaultAuthCall pin]
  match authResult with
  | .error msg =>
    (v, secureHidden, authCalls,
      [{ message := "Vault auth failed: " ++ msg, variant := .danger }])
  | .ok result =>
    if jsTruthy ((jsField result "ok").getD .null) then
      let v1 : VaultState := { v with pin := pin, unlocked := true }
      let afterLoad := loadVaultItems v1 listResult
      (afterLoad.1, false, authCalls ++ afterLoad.2.1,
        afterLoad.2.2 ++ [{ message := "Vault unlocked", variant := .success }])
    else
      (v, secureHidden, authCalls, [{ message := "Invalid PIN", variant := .danger }])

/-! ## Theorems -/

/-- Helper: running the sampler keeps exactly the suffix of the sample
sequence past its first `length - 40` entries. -/
theorem pingSeriesOf_eq_drop (samples : List Int) :
    pingSeriesOf samples = samples.drop (samples.length - 40) := by
  induction samples using List.reverseRecOn with
  | nil => rfl
  | append_singleton s x ih =>
    have hfold : pingSeriesOf (s ++ [x]) = pingStep (pingSeriesOf s) x := by
      simp [pingSeriesOf, List.foldl_append]
    rw [hfold, ih]
    unfold pingStep
    have hlen : (s.drop (s.length - 40) ++ [x]).length = s.length - (s.length - 40) + 1 := by
      simp
    have hlen2 : (s ++ [x]).length = s.length + 1 := by simp
    by_cases h : s.length < 40
    · have h0 : s.length - 40 = 0 := by omega
      have hc : ¬40 < (s.drop (s.length - 40) ++ [x]).length := by rw [hlen]; omega
      rw [if_neg hc, h0, List.drop_zero, hlen2]
      have h1 : s.length + 1 - 40 = 0 := by omega
      rw [h1, List.drop_zero]
    · have hc : 40 < (s.drop (s.length - 40) ++ [x]).length := by rw [hlen]; omega
      rw [if_pos hc]
      have hd1 : (s.drop (s.length - 40) ++ [x]).drop 1 =
          (s.drop (s.length - 40)).drop 1 ++ [x] := by
        apply List.drop_append_of_le_length
        rw [List.length_drop]; omega
      rw [hd1, List.drop_drop, hlen2]
      rw [List.drop_append_of_le_length (show s.length + 1 - 40 ≤ s.length by omega)]
      have harg : s.length - 40 + 1 = s.length + 1 - 40 := by omega
      rw [harg]

/-- C1: for every sequence of `ping` calls, the `pingSeries` buffer never
exceeds 40 entries, and after each call it is exactly the suffix of the
appended samples (the most recent ones, in append order, the oldest having
been evicted first). -/
theorem pingSeries_bounded_and_recent (samples : List Int) :
    (pingSeriesOf samples).length ≤ 40 ∧
      pingSeriesOf samples = samples.drop (samples.length - 40) := by
  refine ⟨?_, pingSeriesOf_eq_drop samples⟩
  rw [pingSeriesOf_eq_drop, List.length_drop]
  omega

/-- C2: each `ping` call appends exactly one entry at the end of the
buffer: the sentinel `-1` when the response is not ok, and the non-negative
rounded elapsed time when it is ok; the appended entry is never a negative
value other than `-1` (and, being an integer of the model, never
null/undefined). -/
theorem ping_appends_one_entry (buf : List Int) (ok : Bool) (t0 t1 : ℚ) (h : t0 ≤ t1) :
    (ok = true → pingEntry ok t0 t1 = jsRound (t1 - t0) ∧ 0 ≤ pingEntry ok t0 t1) ∧
    (ok = false → pingEntry ok t0 t1 = -1) ∧
    (pingEntry ok t0 t1 = -1 ∨ 0 ≤ pingEntry ok t0 t1) ∧
    (ping buf ok t0 t1).getLast? = some (pingEntry ok t0 t1) ∧
    (ping buf ok t0 t1).length =
      (if 40 < buf.length + 1 then buf.length else buf.length + 1) := by
  have hnonneg : ok = true → 0 ≤ pingEntry ok t0 t1 := by
    intro hok
    simp only [pingEntry, hok, if_true, jsRound]
    have : (0 : ℚ) ≤ t1 - t0 + 1 / 2 := by linarith
    exact_mod_cast Int.le_floor.mpr (by push_cast; linarith)
  refine ⟨fun hok => ⟨by simp [pingEntry, hok], hnonneg hok⟩,
    fun hok => by simp [pingEntry, hok], ?_, ?_, ?_⟩
  · cases ok with
    | false => exact Or.inl (by simp [pingEntry])
    | true => exact Or.inr (hnonneg rfl)
  · unfold ping pingStep
    by_cases hc : 40 < (buf ++ [pingEntry ok t0 t1]).length
    · rw [if_pos hc]
      have hb : 1 ≤ buf.length := by
        have := hc; simp at this; omega
      rw [List.drop_append_of_le_length hb, List.getLast?_concat]
    · rw [if_neg hc, List.getLast?_concat]
  · unfold ping pingStep
    have hb : (buf ++ [pingEntry ok t0 t1]).length = buf.length + 1 := by simp
    by_cases hc : 40 < buf.length + 1
    · rw [if_pos (by rw [hb]; exact hc), List.length_drop, hb, if_pos hc]
      omega
    · rw [if_neg (by rw [hb]; exact hc), hb, if_neg hc]

/-- Witness for C2 at a concrete call: a successful ping with a clock
running from 0 to 3/2 milliseconds on a buffer holding one sample. -/
theorem ping_appends_one_entry_witness :
    ((0 : ℚ) ≤ 3 / 2) ∧
    ((true = true →
        pingEntry true 0 (3 / 2) = jsRound ((3 : ℚ) / 2 - 0) ∧
          0 ≤ pingEntry true 0 (3 / 2)) ∧
      (true = false → pingEntry true 0 (3 / 2) = -1) ∧
      (pingEntry true 0 (3 / 2) = -1 ∨ 0 ≤ pingEntry true 0 (3 / 2)) ∧
      (ping [5] true 0 (3 / 2)).getLast? = some (pingEntry true 0 (3 / 2)) ∧
      (ping [5] true 0 (3 / 2)).length =
        (if 40 < ([5] : List Int).length + 1 then ([5] : List Int).length
          else ([5] : List Int).length + 1)) :=
  ⟨by norm_num, ping_appends_one_entry [5] true 0 (3 / 2) (by norm_num)⟩

/-- C6: with an empty buffer, `drawSparkline` only clears the canvas and
issues no path, line or stroke operation. -/
theorem drawSparkline_empty_only_clears (w h : ℚ) :
    drawSparkline [] w h = [DrawCmd.clearRect 0 0 w h] := rfl

/-- Helper: the seed of a `foldl max` is a lower bound of the result. -/
theorem foldl_max_init_le : ∀ (l : List Int) (a : Int), a ≤ l.foldl max a
  | [], a => le_refl a
  | x :: xs, a => le_trans (le_max_left a x) (foldl_max_init_le xs (max a x))

/-- Helper: every list member is a lower bound of a `foldl max`. -/
theorem le_foldl_max_of_mem : ∀ {l : List Int} {x : Int} (a : Int), x ∈ l → x ≤ l.foldl max a
  | y :: ys, x, a, hx => by
    rcases List.mem_cons.mp hx with h | h
    · subst h
      exact le_trans (le_max_right a x) (foldl_max_init_le ys (max a x))
    · exact le_foldl_max_of_mem (max a y) h

/-- Helper: a `foldl max` is its seed or one of the list members. -/
theorem foldl_max_mem : ∀ (l : List Int) (a : Int), l.foldl max a = a ∨ l.foldl max a ∈ l
  | [], _ => Or.inl rfl
  | y :: ys, a => by
    rcases foldl_max_mem ys (max a y) with h | h
    · rcases max_choice a y with hm | hm
      · exact Or.inl (by rw [List.foldl_cons, h, hm])
      · exact Or.inr (by rw [List.foldl_cons, h, hm]; exact List.mem_cons_self y ys)
    · exact Or.inr (List.mem_cons_of_mem y h)

/-- Helper: a `filterMap` whose function never drops an element is a
`map`. -/
theorem filterMap_always_some {α β : Type _} (f : α → Option β) (g : α → β)
    (hf : ∀ a, f a = some (g a)) : ∀ l : List α, l.filterMap f = l.map g
  | [] => rfl
  | x :: xs => by
    rw [List.filterMap_cons, hf x, List.map_cons, filterMap_always_some f g hf xs]

/-- Helper: the points traced by `drawSparkline` on a non-empty buffer, one
per sample, with the `moveTo`/`lineTo` distinction erased. -/
theorem pathPoints_drawSparkline (series : List Int) (w h : ℚ) (hne : series ≠ []) :
    pathPoints (drawSparkline series w h) =
      series.enum.map (fun p =>
        ((p.1 : ℚ) * sparkStep series w, sparkY p.2 h (sparkMax series))) := by
  unfold drawSparkline
  rw [if_neg (by simpa using hne)]
  unfold pathPoints
  simp only [List.filterMap_append, List.filterMap_cons, List.filterMap_nil, List.filterMap_map]
  rw [filterMap_always_some _
    (fun p : ℕ × Int => ((p.1 : ℚ) * sparkStep series w, sparkY p.2 h (sparkMax series)))
    (fun p => by by_cases hp : p.1 = 0 <;> simp [hp, Function.comp]) series.enum]
  simp

/-- C5: on a non-empty buffer, `drawSparkline` plots sample `i` at
`x = i * (w / max(length - 1, 1))` (so a single-sample buffer uses the
defaulted step `w`), pins every failed sample (`v < 0`) to the baseline
`h - 2`, scales the other samples against the maximum of the clamped
observations and 100, and traces exactly one point per sample. -/
theorem drawSparkline_geometry (series : List Int) (w h : ℚ) (hne : series ≠ []) :
    (∀ i v, series.get? i = some v →
        (pathPoints (drawSparkline series w h)).get? i =
          some ((i : ℚ) * (w / ((max (series.length - 1) 1 : ℕ) : ℚ)),
            if v < 0 then h - 2
            else h - ((v : ℚ) / ((sparkMax series : Int) : ℚ)) * h)) ∧
    (pathPoints (drawSparkline series w h)).length = series.length ∧
    ((100 : Int) ≤ sparkMax series ∧
      (∀ v ∈ series, clampNonneg v ≤ sparkMax series) ∧
      (sparkMax series = 100 ∨ sparkMax series ∈ series.map clampNonneg)) ∧
    (∀ u : Int, sparkStep [u] w = w) := by
  refine ⟨?_, ?_, ⟨?_, ?_, ?_⟩, ?_⟩
  · intro i v hv
    rw [pathPoints_drawSparkline series w h hne, List.get?_map, List.get?_enum, hv]
    simp [sparkStep, sparkY]
  · rw [pathPoints_drawSparkline series w h hne]
    simp
  · exact foldl_max_init_le (series.map clampNonneg) 100
  · intro v hv
    exact le_foldl_max_of_mem 100 (List.mem_map_of_mem clampNonneg hv)
  · exact foldl_max_mem (series.map clampNonneg) 100
  · intro u
    simp [sparkStep]

/-- Witness for C5 on the concrete buffer `[120, -1]` drawn on a 200 × 50
canvas. -/
theorem drawSparkline_geometry_witness :
    (([120, -1] : List Int) ≠ []) ∧
    ((∀ i v, ([120, -1] : List Int).get? i = some v →
        (pathPoints (drawSparkline [120, -1] 200 50)).get? i =
          some ((i : ℚ) * (200 / ((max (([120, -1] : List Int).length - 1) 1 : ℕ) : ℚ)),
            if v < 0 then (50 : ℚ) - 2
            else 50 - ((v : ℚ) / ((sparkMax [120, -1] : Int) : ℚ)) * 50)) ∧
      (pathPoints (drawSparkline [120, -1] 200 50)).length = ([120, -1] : List Int).length ∧
      ((100 : Int) ≤ sparkMax [120, -1] ∧
        (∀ v ∈ ([120, -1] : List Int), clampNonneg v ≤ sparkMax [120, -1]) ∧
        (sparkMax [120, -1] = 100 ∨
          sparkMax [120, -1] ∈ ([120, -1] : List Int).map clampNonneg)) ∧
      (∀ u : Int, sparkStep [u] 200 = 200)) :=
  ⟨by decide, drawSparkline_geometry [120, -1] 200 50 (by decide)⟩

/-- Helper: when `a` is absent or falsy, `a || b` falls through to `b`. -/
theorem jsOrElse_of_none (a : Option Json) (b : Option Json)
    (h : jsOrElse a none = none) : jsOrElse a b = b := by
  cases a with
  | none => rfl
  | some v =>
    unfold jsOrElse at h ⊢
    by_cases hv : jsTruthy v
    · simp [hv] at h
    · simp [hv]

/-- Helper: the empty body does not parse. -/
theorem parseJSON_empty : parseJSON "" = none := rfl

/-- C3: for every non-ok response, `fetchJSON` throws an error whose
message prefers a truthy `detail` field of an object payload, then a truthy
`error` field, then the serialized payload itself, and falls back to the
HTTP status text whenever the payload is not a (truthy) object; in
particular a 404 with body `\x7b"detail":"not found"\x7d` yields message
`not found` and a 500 with non-JSON body `oops` yields the status text. -/
theorem fetchJSON_nonok_message :
    (∀ (st body : String) (fields : List (String × Json)) (d : String),
        parseJSON body = some (Json.obj fields) →
        jsField (Json.obj fields) "detail" = some (Json.str d) → d ≠ "" →
        fetchJSONRun ⟨false, st, body⟩ = .error d) ∧
    (∀ (st body : String) (fields : List (String × Json)) (e : String),
        parseJSON body = some (Json.obj fields) →
        jsOrElse (jsField (Json.obj fields) "detail") none = none →
        jsField (Json.obj fields) "error" = some (Json.str e) → e ≠ "" →
        fetchJSONRun ⟨false, st, body⟩ = .error e) ∧
    (∀ (st body : String) (fields : List (String × Json)),
        parseJSON body = some (Json.obj fields) →
        jsOrElse (jsField (Json.obj fields) "detail") none = none →
        jsOrElse (jsField (Json.obj fields) "error") none = none →
        fetchJSONRun ⟨false, st, body⟩ = .error (stringify (Json.obj fields))) ∧
    (∀ (st body : String) (j : Json), parseJSON body = some j → objLike j = false →
        fetchJSONRun ⟨false, st, body⟩ = .error st) ∧
    (∀ st body : String, parseJSON body = none →
        fetchJSONRun ⟨false, st, body⟩ = .error st) ∧
    (∀ st : String, fetchJSONRun ⟨false, st, ""⟩ = .error st) ∧
    fetchJSONRun ⟨false, "Not Found", "\x7b\"detail\":\"not found\"\x7d"⟩ =
      .error "not found" ∧
    fetchJSONRun ⟨false, "Internal Server Error", "oops"⟩ =
      .error "Internal Server Error" := by
  have hne : ∀ (body : String) (j : Json), parseJSON body = some j → body ≠ "" := by
    intro body j hp he
    rw [he] at hp
    exact Option.noConfusion (parseJSON_empty.symm.trans hp)
  refine ⟨?_, ?_, ?_, ?_, ?_, ?_, ?_, ?_⟩
  · intro st body fields d hp hd hdne
    simp only [fetchJSONRun, fetchPayload, if_neg (hne body _ hp), hp, Option.getD_some,
      Bool.false_eq_true, if_false, errMessage, objLike, if_true, hd]
    simp [jsOrElse, jsTruthy, hdne, jsToString]
  · intro st body fields e hp hdnone he hene
    simp only [fetchJSONRun, fetchPayload, if_neg (hne body _ hp), hp, Option.getD_some,
      Bool.false_eq_true, if_false, errMessage, objLike, if_true,
      jsOrElse_of_none _ _ hdnone, he]
    simp [jsOrElse, jsTruthy, hene, jsToString]
  · intro st body fields hp hdnone henone
    simp only [fetchJSONRun, fetchPayload, if_neg (hne body _ hp), hp, Option.getD_some,
      Bool.false_eq_true, if_false, errMessage, objLike, if_true,
      jsOrElse_of_none _ _ hdnone, jsOrElse_of_none _ _ henone]
  · intro st body j hp hobj
    simp only [fetchJSONRun, fetchPayload, if_neg (hne body _ hp), hp, Option.getD_some,
      Bool.false_eq_true, if_false, errMessage, hobj]
  · intro st body hp
    by_cases hb : body = ""
    · subst hb
      rfl
    · simp only [fetchJSONRun, fetchPayload, if_neg hb, hp, Option.getD_none,
        Bool.false_eq_true, if_false, errMessage, objLike]
  · intro st
    rfl
  · rfl
  · rfl

/-- Witness for C3 applied at the 404 response with body
`\x7b"detail":"not found"\x7d`. -/
theorem fetchJSON_nonok_message_witness :
    (parseJSON "\x7b\"detail\":\"not found\"\x7d" =
        some (Json.obj [("detail", Json.str "not found")]) ∧
      jsField (Json.obj [("detail", Json.str "not found")]) "detail" =
        some (Json.str "not found") ∧
      "not found" ≠ "") ∧
    fetchJSONRun ⟨false, "Not Found", "\x7b\"detail\":\"not found\"\x7d"⟩ =
      .error "not found" :=
  ⟨⟨rfl, rfl, by decide⟩,
    fetchJSON_nonok_message.1 "Not Found" "\x7b\"detail\":\"not found\"\x7d"
      [("detail", Json.str "not found")] "not found" rfl rfl (by decide)⟩

/-- C10: a 2xx response with an empty body resolves to the empty object
(never to null), and a 2xx response whose non-empty body is not valid JSON
resolves to the raw body text. -/
theorem fetchJSON_ok_payload :
    (∀ st : String, fetchJSONRun ⟨true, st, ""⟩ = .ok (Json.obj [])) ∧
    (∀ st body : String, body ≠ "" → parseJSON body = none →
        fetchJSONRun ⟨true, st, body⟩ = .ok (Json.str body)) ∧
    (∀ st body : String, fetchJSONRun ⟨true, st, body⟩ ≠ .ok Json.null) := by
  refine ⟨fun st => rfl, ?_, ?_⟩
  · intro st body hb hp
    simp only [fetchJSONRun, fetchPayload, if_neg hb, hp, Option.getD_none, if_true]
  · intro st body
    simp only [fetchJSONRun]
    cases hpay : fetchPayload body <;> simp

/-- Witness for C10 at the concrete non-JSON body `oops`. -/
theorem fetchJSON_ok_payload_witness :
    ("oops" ≠ "" ∧ parseJSON "oops" = none) ∧
    fetchJSONRun ⟨true, "OK", "oops"⟩ = .ok (Json.str "oops") :=
  ⟨⟨by decide, rfl⟩, fetchJSON_ok_payload.2.1 "OK" "oops" (by decide) rfl⟩

/-- Helper: after `headers[k] = v`, looking up `k` finds `v`. -/
theorem lookup_setHeader (hs : List (String × String)) (k v : String) :
    (setHeader hs k v).lookup k = some v := by
  induction hs with
  | nil => simp [setHeader, List.lookup]
  | cons kv rest ih =>
    obtain ⟨k0, v0⟩ := kv
    by_cases hk : k0 = k
    · simp [setHeader, hk, List.lookup]
    · simp only [setHeader, if_neg hk, List.lookup]
      have hbk : (k == k0) = false := beq_eq_false_iff_ne.mpr (fun he => hk he.symm)
      rw [hbk]
      exact ih

/-- C4: a `fetchJSON` call carrying a plain-object body and no
`Content-Type` header issues its request with `Content-Type:
application/json` and the `JSON.stringify` serialization of the body; the
header is set only when absent and the body is not a `FormData`; posting
body `\x7ba:1\x7d` with no headers sends the string `\x7b"a":1\x7d`. -/
theorem fetchPrepare_serializes_object_body :
    (∀ (opts : FetchOpts) (fields : List (String × Json)),
        opts.body = some (BodyVal.obj fields) →
        headerTruthy opts.headers "Content-Type" = false →
        (fetchPrepare opts).headers.lookup "Content-Type" = some "application/json" ∧
        (fetchPrepare opts).body = some (BodyVal.str (stringify (Json.obj fields)))) ∧
    (∀ opts : FetchOpts, headerTruthy opts.headers "Content-Type" = true →
        (fetchPrepare opts).headers = opts.headers ∧
        (fetchPrepare opts).body = opts.body) ∧
    (∀ opts : FetchOpts, isFormBody opts.body = true →
        (fetchPrepare opts).headers = opts.headers ∧
        (fetchPrepare opts).body = opts.body) ∧
    fetchPrepare { method := some "POST", headers := [], body := some (.obj [("a", .num 1)]) } =
      { method := "POST", headers := [("Content-Type", "application/json")],
        body := some (.str "\x7b\"a\":1\x7d") } := by
  refine ⟨?_, ?_, ?_, rfl⟩
  · intro opts fields hbody hct
    unfold fetchPrepare
    rw [if_pos (by simp [hbody, bodyTruthy, isFormBody, hct])]
    exact ⟨lookup_setHeader opts.headers "Content-Type" "application/json",
      by simp [hbody, stringifyBody]⟩
  · intro opts hct
    unfold fetchPrepare
    rw [if_neg (by simp [hct])]
    exact ⟨rfl, rfl⟩
  · intro opts hform
    unfold fetchPrepare
    rw [if_neg (by simp [hform])]
    exact ⟨rfl, rfl⟩

/-- The concrete options bag of C4's round-trip example: a `POST` with body
object `\x7ba:1\x7d` and no explicit headers. -/
def examplePostOpts : FetchOpts :=
  { method := some "POST", headers := [], body := some (.obj [("a", .num 1)]) }

/-- Witness for C4 at the concrete call posting `\x7ba:1\x7d` with no
headers. -/
theorem fetchPrepare_serializes_object_body_witness :
    (examplePostOpts.body = some (BodyVal.obj [("a", Json.num 1)]) ∧
      headerTruthy examplePostOpts.headers "Content-Type" = false) ∧
    ((fetchPrepare examplePostOpts).headers.lookup "Content-Type" =
        some "application/json" ∧
      (fetchPrepare examplePostOpts).body =
        some (BodyVal.str (stringify (Json.obj [("a", Json.num 1)])))) :=
  ⟨⟨rfl, rfl⟩,
    fetchPrepare_serializes_object_body.1 examplePostOpts [("a", Json.num 1)] rfl rfl⟩

/-- Helper: reading a `tabsLoaded` flag after writing one. -/
theorem TabsLoaded.get_set (t : TabsLoaded) (a b : TabId) (v : Bool) :
    (t.set a v).get b = if b = a then v else t.get b := by
  cases a <;> cases b <;> simp [TabsLoaded.get, TabsLoaded.set]

/-- Helper: `refreshProjectsSection` never touches the `tabsLoaded`
flags. -/
theorem refreshProjectsSection_tabsLoaded (s : ClientState) (f : ProjectsFetch) :
    (refreshProjectsSection s f).1.tabsLoaded = s.tabsLoaded := by
  cases f with
  | ok a => obtain ⟨ps, ts, ns⟩ := a; rfl
  | error msg => rfl

/-- Helper: the loaded flag of tab `b` after `activateTab s t f`. -/
theorem activateTab_get (s : ClientState) (t : TabId) (f : ProjectsFetch) (b : TabId) :
    (activateTab s t f).1.tabsLoaded.get b =
      (s.tabsLoaded.get b || decide (b = t)) := by
  unfold activateTab
  by_cases h : s.tabsLoaded.get t
  · rw [if_pos h]
    by_cases hbt : b = t
    · subst hbt
      simp [h]
    · simp [hbt]
  · rw [if_neg h]
    by_cases hpt : t = TabId.projects
    · simp only [hpt, if_true]
      rw [TabsLoaded.get_set, refreshProjectsSection_tabsLoaded]
      by_cases hbt : b = TabId.projects <;> simp [hbt, hpt]
    · simp only [if_neg hpt]
      rw [TabsLoaded.get_set]
      by_cases hbt : b = t <;> simp [hbt]

/-- Helper: how many `facadeLoad u` effects one `activateTab s t f` call
emits. -/
theorem activateTab_count (s : ClientState) (t : TabId) (f : ProjectsFetch) (u : TabId) :
    (activateTab s t f).2.1.count (Effect.facadeLoad u) =
      (if u = t ∧ hasLoader t = true ∧ s.tabsLoaded.get t = false then 1 else 0) := by
  unfold activateTab
  by_cases h : s.tabsLoaded.get t
  · rw [if_pos h]
    simp [List.count_singleton, h]
  · rw [if_neg h]
    by_cases hl : hasLoader t
    · simp only [hl, if_true]
      by_cases hut : u = t
      · subst hut
        simp [List.count_append, List.count_cons, h, hl]
      · simp [List.count_append, List.count_cons, hut, Ne.symm hut]
    · simp only [hl, if_false]
      simp_all [List.count_append, List.count_cons]

/-- Helper: total `facadeLoad u` effects over a run of activations from an
arbitrary state. -/
theorem runActivations_count (acts : List TabId) (s : ClientState) (f : ProjectsFetch)
    (u : TabId) :
    (runActivations s acts f).2.count (Effect.facadeLoad u) =
      (if u ∈ acts ∧ hasLoader u = true ∧ s.tabsLoaded.get u = false then 1 else 0) := by
  induction acts generalizing s with
  | nil => simp [runActivations]
  | cons t rest ih =>
    rw [runActivations]
    simp only [List.count_append]
    rw [activateTab_count, ih ((activateTab s t f).1), activateTab_get]
    by_cases hut : u = t
    · subst hut
      by_cases hl : hasLoader u <;> by_cases hg : s.tabsLoaded.get u <;>
        simp [hl, hg, List.mem_cons]
    · simp [hut, Ne.symm hut, List.mem_cons, decide_eq_false hut]

/-- Helper: the loaded flags after a run of activations. -/
theorem runActivations_get (acts : List TabId) (s : ClientState) (f : ProjectsFetch)
    (u : TabId) :
    (runActivations s acts f).1.tabsLoaded.get u =
      (s.tabsLoaded.get u || decide (u ∈ acts)) := by
  induction acts generalizing s with
  | nil => simp [runActivations]
  | cons t rest ih =>
    rw [runActivations]
    simp only
    rw [ih ((activateTab s t f).1), activateTab_get]
    by_cases hut : u = t <;> simp [hut, List.mem_cons, Bool.or_assoc]

/-- Helper: every tab starts unloaded. -/
theorem initialTabsLoaded_get (t : TabId) : initialTabsLoaded.get t = false := by
  cases t <;> rfl

/-- C7: a tab's façade data load is triggered exactly once over any
sequence of `activateTab` calls from the pristine client state — on the
tab's first activation — and a call on an already-loaded tab leaves the
state unchanged and only toggles DOM visibility. -/
theorem activateTab_loads_once :
    (∀ (s : ClientState) (t : TabId) (f : ProjectsFetch), s.tabsLoaded.get t = true →
        activateTab s t f = (s, [Effect.toggleVisibility t], [])) ∧
    (∀ (acts : List TabId) (f : ProjectsFetch) (t : TabId),
        (runActivations initialClientState acts f).2.count (Effect.facadeLoad t) =
          (if t ∈ acts ∧ hasLoader t = true then 1 else 0)) ∧
    (∀ (acts : List TabId) (f : ProjectsFetch) (t : TabId),
        (runActivations initialClientState acts f).1.tabsLoaded.get t =
          decide (t ∈ acts)) := by
  refine ⟨?_, ?_, ?_⟩
  · intro s t f h
    unfold activateTab
    rw [if_pos h]
  · intro acts f t
    rw [runActivations_count]
    simp [initialClientState, initialTabsLoaded_get]
  · intro acts f t
    rw [runActivations_get]
    simp [initialClientState, initialTabsLoaded_get]

/-- A client state whose `home` tab is already loaded. -/
def homeLoadedState : ClientState :=
  { initialClientState with tabsLoaded := initialTabsLoaded.set TabId.home true }

/-- Witness for C7: a second activation of the already-loaded `home` tab is
a pure visibility toggle, and over the concrete activation run
`[home, projects, home, projects]` the `projects` load fires exactly
once. -/
theorem activateTab_loads_once_witness :
    (homeLoadedState.tabsLoaded.get TabId.home = true ∧
      activateTab homeLoadedState TabId.home (Except.error "boom") =
        (homeLoadedState, [Effect.toggleVisibility TabId.home], [])) ∧
    (runActivations initialClientState
          [TabId.home, TabId.projects, TabId.home, TabId.projects]
          (Except.error "boom")).2.count (Effect.facadeLoad TabId.projects) =
      (if TabId.projects ∈ [TabId.home, TabId.projects, TabId.home, TabId.projects] ∧
          hasLoader TabId.projects = true then 1 else 0) :=
  ⟨⟨rfl, activateTab_loads_once.1 homeLoadedState TabId.home (Except.error "boom") rfl⟩,
    activateTab_loads_once.2.1
      [TabId.home, TabId.projects, TabId.home, TabId.projects]
      (Except.error "boom") TabId.projects⟩

/-- Counterexample to C9 as stated: activating the `projects` tab while its
fan-out fetch fails does catch the error and toast, but it does not leave
the state object unchanged — the `projects` tab-loaded flag flips from
`false` to `true` on this error path. -/
theorem activateTab_error_mutates_loaded_flag :
    (activateTab initialClientState TabId.projects (Except.error "boom")).1.tabsLoaded ≠
      initialClientState.tabsLoaded ∧
    (activateTab initialClientState TabId.projects (Except.error "boom")).2.2 =
      [{ message := "Project load failed: boom", variant := ToastVariant.danger }] := by
  constructor
  · intro h
    have h1 : (activateTab initialClientState TabId.projects
        (Except.error "boom")).1.tabsLoaded.projects = true := rfl
    rw [h] at h1
    exact Bool.noConfusion h1
  · rfl

/-- C9 (amended): when a wrapped façade call fails, the controller action
catches the error and emits a danger toast, and every data slice of the
state (`projects`, `tasks`, `notes`, `vault`) is left unchanged;
`activateTab` still marks the tab loaded on its first activation even when
the triggered load fails, and that flag is the only state change on the
error path. -/
theorem controller_error_path_state :
    (∀ (s : ClientState) (msg : String),
        refreshProjectsSection s (.error msg) =
          (s, [{ message := "Project load failed: " ++ msg, variant := .danger }])) ∧
    (∀ (s : ClientState) (t : TabId) (msg : String),
        (activateTab s t (.error msg)).1 =
          (if s.tabsLoaded.get t then s
            else { s with tabsLoaded := s.tabsLoaded.set t true })) ∧
    (∀ (s : ClientState) (t : TabId) (msg : String),
        (activateTab s t (.error msg)).1.projects = s.projects ∧
        (activateTab s t (.error msg)).1.tasks = s.tasks ∧
        (activateTab s t (.error msg)).1.notes = s.notes ∧
        (activateTab s t (.error msg)).1.vault = s.vault) := by
  have hstate : ∀ (s : ClientState) (t : TabId) (msg : String),
      (activateTab s t (.error msg)).1 =
        (if s.tabsLoaded.get t then s
          else { s with tabsLoaded := s.tabsLoaded.set t true }) := by
    intro s t msg
    unfold activateTab
    by_cases h : s.tabsLoaded.get t
    · rw [if_pos h, if_pos h]
    · rw [if_neg h, if_neg h]
      by_cases hpt : t = TabId.projects
      · simp [hpt, refreshProjectsSection]
      · simp [hpt]
  refine ⟨fun s msg => rfl, hstate, ?_⟩
  intro s t msg
  rw [hstate s t msg]
  by_cases h : s.tabsLoaded.get t
  · rw [if_pos h]
    exact ⟨rfl, rfl, rfl, rfl⟩
  · rw [if_neg h]
    exact ⟨rfl, rfl, rfl, rfl⟩

/-- C8: submitting the vault unlock form with a PIN the auth endpoint
accepts stores the PIN in the session state, marks the vault unlocked,
reveals the secure section, and populates the items through a `POST` to
`/vault/items/list` carrying that PIN; with a rejected PIN the secure
section and the vault state are untouched and a danger toast is shown. -/
theorem vault_unlock_behaviour :
    (∀ (v : VaultState) (hidden : Bool) (pin : String) (result : Json)
        (items : List Json),
        jsTruthy ((jsField result "ok").getD Json.null) = true →
        vaultUnlockSubmit v hidden pin (.ok result) (.ok items) =
          ({ pin := pin, unlocked := true, items := items }, false,
            [vaultAuthCall pin, vaultListCall pin],
            [{ message := "Vault unlocked", variant := .success }])) ∧
    (∀ (v : VaultState) (hidden : Bool) (pin : String) (result : Json)
        (listResult : Except String (List Json)),
        jsTruthy ((jsField result "ok").getD Json.null) = false →
        vaultUnlockSubmit v hidden pin (.ok result) listResult =
          (v, hidden, [vaultAuthCall pin],
            [{ message := "Invalid PIN", variant := .danger }])) ∧
    (∀ pin : String, vaultListCall pin =
        { method := "POST", path := "/vault/items/list",
          body := Json.obj [("pin", Json.str pin)] }) := by
  refine ⟨?_, ?_, fun pin => rfl⟩
  · intro v hidden pin result items h
    simp [vaultUnlockSubmit, h, loadVaultItems]
  · intro v hidden pin result listResult h
    simp [vaultUnlockSubmit, h]

/-- Witness for C8: unlocking with a PIN the endpoint answered
`\x7bok: true\x7d` for, from the pristine vault state. -/
theorem vault_unlock_behaviour_witness :
    (jsTruthy ((jsField (Json.obj [("ok", Json.bool true)]) "ok").getD Json.null) = true) ∧
    (vaultUnlockSubmit { pin := "", unlocked := false, items := [] } true "1234"
        (.ok (Json.obj [("ok", Json.bool true)])) (.ok [Json.str "secret"]) =
      ({ pin := "1234", unlocked := true, items := [Json.str "secret"] }, false,
        [vaultAuthCall "1234", vaultListCall "1234"],
        [{ message := "Vault unlocked", variant := .success }])) :=
  ⟨rfl,
    vault_unlock_behaviour.1 { pin := "", unlocked := false, items := [] } true "1234"
      (Json.obj [("ok", Json.bool true)]) [Json.str "secret"] rfl⟩
